import Mathlib

/-!
Shallow embedding of the BTP DEG-helper pipeline (src/app.py).

The program ingests a GEO2R results table and an optional GPL annotation
table, selects an operating mode from the available columns, optionally
left-joins the two tables on the probe id, normalizes locus-tag
identifiers, applies significance thresholds, keeps one probe per gene by
maximal absolute log-fold-change, partitions the survivors into up- and
down-regulated sets, and serializes tab- and newline-delimited artifacts.

Modelling conventions:
- pandas DataFrames are modelled per stage: the classifier works on lists
  of `Row` records (the three columns it reads), the merge stage on
  `GeoRow`/`GplRow`/`MergedRow` records, and column-level operations
  (drop / rename / append) on `List String` of column names.
- Python floats are modelled as `ℚ`; Python strings are modelled as
  `String`, with the character-level operations of `fix_so` expressed on
  `String.toList` (Python strings are character sequences).
- `pandas.sort_values` at line 249 uses the library default sort, whose
  order among rows of equal key is not guaranteed; it is modelled here by
  one concrete permutation sorted by descending magnitude
  (`List.insertionSort`).  No theorem below relies on the tie order of
  this sort.  `drop_duplicates` is modelled as keep-first-occurrence
  dedup.
- `st.error` / `st.warning` followed by `st.stop()` is modelled as an
  `Except` error value: the invocation ends there and no artifact is
  produced.
-/

/-- Error taxonomy of the pipeline boundary: each constructor models an
`st.error`/`st.warning` followed by `st.stop()` in src/app.py, tagged with
the cause. -/
inductive PipeError where
  | missingColumns (missing : List String)
  | annotMissing
  | emptyResult
deriving DecidableEq

/-- One row of the annotated results table as seen by the DEG classifier:
the three columns read by lines 238–254 of src/app.py. -/
structure Row where
  adjPVal : ℚ
  logFC : ℚ
  locusTag : String
deriving DecidableEq

/-- One row of the GEO2R results table in merge mode (columns `ID`,
`adj.P.Val`, `logFC`). -/
structure GeoRow where
  id : String
  adjPVal : ℚ
  logFC : ℚ
deriving DecidableEq

/-- One row of the GPL platform table restricted to `["ID", "ORF"]`
(line 201 of src/app.py); `orf` is `none` when the cell is missing (NaN). -/
structure GplRow where
  id : String
  orf : Option String
deriving DecidableEq

/-- One row of the left-joined table: GEO2R columns plus the `Locus_tag`
column acquired from the GPL `ORF` column (null when unmatched). -/
structure MergedRow where
  id : String
  adjPVal : ℚ
  logFC : ℚ
  locusTag : Option String
deriving DecidableEq

/-- Lines 95–99 of src/app.py: rewrite `SOxxxx` to `SO_xxxx` when the tag
starts with the two characters `SO`, has no underscore, and is longer than
two characters; otherwise return it unchanged.  Python's
`tag.startswith("SO")`, `"_" not in tag` and `len(tag) > 2` are
character-level tests, rendered here on `tag.toList`. -/
def fix_so (tag : String) : String :=
  if tag.toList.take 2 = ['S', 'O'] ∧ '_' ∉ tag.toList ∧ 2 < tag.length then
    "SO_" ++ tag.drop 2
  else tag

/-- Lines 220–221 of src/app.py: `fix_so` is applied to each identifier
exactly when the `add_underscore` setting is enabled. -/
def normalizeTag (tag : String) (apply_underscore_fix : Bool) : String :=
  if apply_underscore_fix then fix_so tag else tag

/-- Lines 131–132 of src/app.py: any pre-existing `Locus_tag` column is
dropped from the results table before mode detection. -/
def dropLocusTag (cols : List String) : List String :=
  if "Locus_tag" ∈ cols then cols.filter fun c => decide (c ≠ "Locus_tag") else cols

/-- Lines 134–138 of src/app.py: after dropping the old `Locus_tag`
column, the mode is `"single"` when an `ORF` or `Locus_tag` column is
present and `"merge"` otherwise. -/
def detectMode (geoCols : List String) : String :=
  let cols := dropLocusTag geoCols
  let has_orf := "ORF" ∈ cols
  let has_locus := "Locus_tag" ∈ cols
  if has_orf ∨ has_locus then "single" else "merge"

/-- Lines 164–175 of src/app.py: merge mode with no GPL file supplied
stops with the missing-annotation error; otherwise the detected mode is
used. -/
def resolveJoinMode (geoCols : List String) (gplSupplied : Bool) : Except PipeError String :=
  if detectMode geoCols = "single" then .ok "single"
  else if gplSupplied then .ok "merge"
  else .error .annotMissing

/-- Lines 150–151 of src/app.py (single-file mode): column names after
dropping the old `Locus_tag` column and renaming `ORF` to `Locus_tag`.
The rename fires whenever `ORF` is present, since `has_locus` is always
false after the drop; mapping is the identity when `ORF` is absent. -/
def singleModeColumns (geoCols : List String) : List String :=
  (dropLocusTag geoCols).map fun c => if c = "ORF" then "Locus_tag" else c

/-- Line 246 of src/app.py: `merged_deg["abs_logFC"] = ...` appends the
working column `abs_logFC` after the resolved columns; it is never dropped
before serialization. -/
def degTableColumns (resolvedCols : List String) : List String :=
  resolvedCols ++ ["abs_logFC"]

/-- Lines 154–158 and 185–193 of src/app.py: the required column names
absent from the table (`required_cols - set(df.columns)`), in the order
the requirement list is written. -/
def missingCols (required cols : List String) : List String :=
  required.filter fun c => decide (c ∉ cols)

/-- The schema check: stop with `MissingColumnsError` carrying the whole
missing set when any required column is absent, succeed otherwise. -/
def checkRequired (required cols : List String) : Except PipeError Unit :=
  if missingCols required cols = [] then .ok ()
  else .error (.missingColumns (missingCols required cols))

/-- Line 154 of src/app.py: required columns in single-file mode. -/
def required_cols_single : List String := ["adj.P.Val", "logFC", "Locus_tag"]

/-- Line 182 of src/app.py: required GEO2R columns in merge mode. -/
def required_geo_cols : List String := ["ID", "adj.P.Val", "logFC"]

/-- Line 183 of src/app.py: required GPL columns in merge mode. -/
def required_gpl_cols : List String := ["ID", "ORF"]

/-- Line 196 of src/app.py: `geo_df.drop_duplicates(subset=["ID"])` keeps
the first occurrence of each probe id, preserving order; `seen` carries
the ids already emitted. -/
def dropDupByIdAux (seen : List String) : List GeoRow → List GeoRow
  | [] => []
  | g :: gs =>
    if g.id ∈ seen then dropDupByIdAux seen gs
    else g :: dropDupByIdAux (g.id :: seen) gs

/-- Probe-id deduplication of the GEO2R table (first occurrence wins). -/
def dropDupById (geo : List GeoRow) : List GeoRow :=
  dropDupByIdAux [] geo

/-- One left row joined against the GPL table: one output row per match in
GPL order, or a single row with a null `Locus_tag` when nothing matches
(pandas `pd.merge(..., how="left")` semantics, lines 199–206). -/
def leftJoinRow (g : GeoRow) (gpl : List GplRow) : List MergedRow :=
  let ms := gpl.filter fun a => decide (a.id = g.id)
  if ms = [] then [⟨g.id, g.adjPVal, g.logFC, none⟩]
  else ms.map fun a => ⟨g.id, g.adjPVal, g.logFC, a.orf⟩

/-- Lines 199–206 of src/app.py: left join of the GEO2R rows onto the GPL
rows on `ID`, with `ORF` renamed to `Locus_tag`. -/
def leftJoin (geo : List GeoRow) (gpl : List GplRow) : List MergedRow :=
  geo.flatMap fun g => leftJoinRow g gpl

/-- Line 209 of src/app.py: `merged.dropna(subset=["Locus_tag"])`. -/
def dropnaLocus (l : List MergedRow) : List MergedRow :=
  l.filter fun m => m.locusTag.isSome

/-- Lines 196–215 of src/app.py: dedup by probe id, left join, drop rows
with a null identifier; the second component is the dropped-row count
reported to the user (`before_drop - after_drop`). -/
def mergePipeline (geo : List GeoRow) (gpl : List GplRow) : List MergedRow × Nat :=
  let deduped := dropDupById geo
  let merged := leftJoin deduped gpl
  let out := dropnaLocus merged
  (out, merged.length - out.length)

/-- Line 238 of src/app.py: the DEG mask,
`(adj.P.Val <= fdr_cutoff) & (|logFC| >= logfc_cutoff)`. -/
def deg_mask (fdr_cutoff logfc_cutoff : ℚ) (r : Row) : Bool :=
  decide (r.adjPVal ≤ fdr_cutoff) && decide (logfc_cutoff ≤ |r.logFC|)

/-- Line 239 of src/app.py: the rows retained by the significance filter. -/
def significanceFilter (fdr_cutoff logfc_cutoff : ℚ) (rows : List Row) : List Row :=
  rows.filter (deg_mask fdr_cutoff logfc_cutoff)

/-- Descending order on `|logFC|` used by line 249 of src/app.py
(`sort_values("abs_logFC", ascending=False)`). -/
abbrev absDesc (a b : Row) : Prop := |b.logFC| ≤ |a.logFC|

instance : IsTotal Row absDesc := ⟨fun _ _ => le_total _ _⟩

instance : IsTrans Row absDesc := ⟨fun _ _ _ h1 h2 => le_trans h2 h1⟩

/-- Line 249 of src/app.py: sort by descending `abs_logFC`.  The source
uses the pandas default sort kind, which does not guarantee the relative
order of rows with equal magnitude; this model fixes one concrete
permutation sorted by descending magnitude (`insertionSort`), and the
theorems below use only that it is such a permutation, never its tie
order. -/
def sortByAbsDesc (rows : List Row) : List Row :=
  List.insertionSort absDesc rows

/-- Line 250 of src/app.py: `drop_duplicates(subset=["Locus_tag"])` keeps
the first row of each locus tag, preserving order; `seen` carries the tags
already emitted. -/
def dedupByTagAux (seen : List String) : List Row → List Row
  | [] => []
  | r :: rs =>
    if r.locusTag ∈ seen then dedupByTagAux seen rs
    else r :: dedupByTagAux (r.locusTag :: seen) rs

/-- Per-gene deduplication (first occurrence of each locus tag wins). -/
def dedupByTag (rows : List Row) : List Row :=
  dedupByTagAux [] rows

/-- Lines 238–250 of src/app.py: the final DEG set — significance filter,
then, when one-probe-per-gene is enabled, the magnitude-descending sort
followed by first-occurrence dedup on `Locus_tag`. -/
def merged_deg (fdr_cutoff logfc_cutoff : ℚ) (one_probe_per_gene : Bool)
    (rows : List Row) : List Row :=
  let f := significanceFilter fdr_cutoff logfc_cutoff rows
  if one_probe_per_gene then dedupByTag (sortByAbsDesc f) else f

/-- Line 253 of src/app.py: the up-set `merged_deg[logFC >= logfc_cutoff]`. -/
def test_up (merged_deg_rows : List Row) (logfc_cutoff : ℚ) : List Row :=
  merged_deg_rows.filter fun r => decide (logfc_cutoff ≤ r.logFC)

/-- Line 254 of src/app.py: the down-set `merged_deg[logFC <= -logfc_cutoff]`. -/
def control_up (merged_deg_rows : List Row) (logfc_cutoff : ℚ) : List Row :=
  merged_deg_rows.filter fun r => decide (r.logFC ≤ -logfc_cutoff)

/-- Lines 238–254 of src/app.py as one classifier step: stop with the
recoverable empty-result notice when the significance filter retains no
row (lines 241–243, before dedup), otherwise return the DEG set with its
up/down partition. -/
def classify (fdr_cutoff logfc_cutoff : ℚ) (one_probe_per_gene : Bool)
    (rows : List Row) : Except PipeError (List Row × List Row × List Row) :=
  let f := significanceFilter fdr_cutoff logfc_cutoff rows
  if f = [] then .error .emptyResult
  else
    let d := if one_probe_per_gene then dedupByTag (sortByAbsDesc f) else f
    .ok (d, test_up d logfc_cutoff, control_up d logfc_cutoff)

/-- Cells of one serialized line joined by tabs (`"\t".join`). -/
def joinTabs : List String → String
  | [] => ""
  | [c] => c
  | c :: cs => c ++ "\t" ++ joinTabs cs

/-- Lines each terminated by a newline, concatenated. -/
def linesToBytes : List String → String
  | [] => ""
  | l :: ls => l ++ "\n" ++ linesToBytes ls

/-- Lines 83–86 of src/app.py: `df.to_csv(sep="\t", index=False)` — a
header line of tab-joined column names followed by one tab-joined line per
row, each line terminated by a newline. -/
def df_to_tsv_bytes (cols : List String) (cells : List (List String)) : String :=
  linesToBytes (joinTabs cols :: cells.map joinTabs)

/-- Lines 89–92 of src/app.py: `series.to_csv(index=False, header=False)`
— one value per line. -/
def series_to_txt_bytes (vals : List String) : String :=
  linesToBytes vals

/-- Number of newline characters in a string (the line count of a
newline-terminated byte artifact). -/
def countNL (s : String) : Nat :=
  s.toList.count '\n'

/-! ### Dedup lemmas -/

/-- Keep-first dedup yields a sublist of its input. -/
theorem dedupByTagAux_sublist (seen : List String) (l : List Row) :
    (dedupByTagAux seen l).Sublist l := by
  induction l generalizing seen with
  | nil => simp [dedupByTagAux]
  | cons r rs ih =>
    by_cases h : r.locusTag ∈ seen
    · rw [dedupByTagAux, if_pos h]
      exact (ih seen).cons r
    · rw [dedupByTagAux, if_neg h]
      exact (ih (r.locusTag :: seen)).cons₂ r

/-! ### Sort lemmas -/

/-- Membership is preserved by the magnitude sort. -/
theorem mem_sortByAbsDesc {r : Row} {l : List Row} : r ∈ sortByAbsDesc l ↔ r ∈ l :=
  (List.perm_insertionSort absDesc l).mem_iff

/-! ### Merge-mode lemmas -/

/-- With pairwise-distinct annotation ids, at most one annotation row
matches any given probe id. -/
theorem filter_by_id_length_le_one (x : String) :
    ∀ gpl : List GplRow, (gpl.map GplRow.id).Nodup →
      (gpl.filter fun a => decide (a.id = x)).length ≤ 1 := by
  intro gpl
  induction gpl with
  | nil => intro _; simp
  | cons a as ih =>
    intro hnodup
    rw [List.map_cons, List.nodup_cons] at hnodup
    obtain ⟨hna, hnas⟩ := hnodup
    rw [List.filter_cons]
    by_cases hax : a.id = x
    · rw [if_pos (by simpa using hax)]
      have hempty : as.filter (fun b => decide (b.id = x)) = [] := by
        rw [List.filter_eq_nil_iff]
        intro b hb hbx
        have hbid : b.id = x := of_decide_eq_true hbx
        exact hna (List.mem_map.mpr ⟨b, hb, by rw [hbid, hax]⟩)
      rw [hempty]
      simp
    · rw [if_neg (by simpa using hax)]
      exact ih hnas

/-- With pairwise-distinct annotation ids, the left join emits exactly one
row per left row. -/
theorem leftJoinRow_length (g : GeoRow) (gpl : List GplRow)
    (hnodup : (gpl.map GplRow.id).Nodup) : (leftJoinRow g gpl).length = 1 := by
  unfold leftJoinRow
  by_cases hms : (gpl.filter fun a => decide (a.id = g.id)) = []
  · rw [if_pos hms]
    rfl
  · rw [if_neg hms, List.length_map]
    have h1 := filter_by_id_length_le_one g.id gpl hnodup
    have h2 : 0 < (gpl.filter fun a => decide (a.id = g.id)).length :=
      List.length_pos.mpr hms
    omega

/-- With pairwise-distinct annotation ids, the joined table has the same
length as the left table. -/
theorem leftJoin_length (gpl : List GplRow) (hnodup : (gpl.map GplRow.id).Nodup)
    (d : List GeoRow) : (leftJoin d gpl).length = d.length := by
  induction d with
  | nil => rfl
  | cons g gs ih =>
    simp only [leftJoin, List.flatMap_cons, List.length_append] at ih ⊢
    rw [leftJoinRow_length g gpl hnodup, ih]
    simp [Nat.add_comm]

/-! ### Serializer lemmas -/

/-- Newline count distributes over string append. -/
theorem countNL_append (s t : String) : countNL (s ++ t) = countNL s + countNL t := by
  simp only [countNL, String.toList]
  rw [String.data_append, List.count_append]

/-- A tab-joined line of newline-free cells is newline-free. -/
theorem countNL_joinTabs (cs : List String) (h : ∀ c ∈ cs, countNL c = 0) :
    countNL (joinTabs cs) = 0 := by
  induction cs with
  | nil => rfl
  | cons c cs ih =>
    cases cs with
    | nil => exact h c (by simp)
    | cons d ds =>
      show countNL (c ++ "\t" ++ joinTabs (d :: ds)) = 0
      rw [countNL_append, countNL_append, h c (by simp),
        ih (fun x hx => h x (List.mem_cons_of_mem c hx))]
      rfl

/-- A newline-terminated rendering of newline-free lines contains exactly
one newline per line. -/
theorem countNL_linesToBytes (ls : List String) (h : ∀ l ∈ ls, countNL l = 0) :
    countNL (linesToBytes ls) = ls.length := by
  induction ls with
  | nil => rfl
  | cons l ls ih =>
    show countNL (l ++ "\n" ++ linesToBytes ls) = ls.length + 1
    rw [countNL_append, countNL_append, h l (by simp),
      ih (fun x hx => h x (List.mem_cons_of_mem l hx))]
    have hnl : countNL "\n" = 1 := rfl
    omega

/-! ### Claim theorems -/

/-- C2: a DEG row is in the up-set iff `logFC >= logfc_cutoff` and in the
down-set iff `logFC <= -logfc_cutoff`; for a positive cutoff the two sets
are disjoint; for cutoff zero a zero-`logFC` row belongs to both. -/
theorem C2_partition (D : List Row) (lfc : ℚ) (r : Row) :
    (r ∈ test_up D lfc ↔ r ∈ D ∧ lfc ≤ r.logFC)
    ∧ (r ∈ control_up D lfc ↔ r ∈ D ∧ r.logFC ≤ -lfc)
    ∧ (0 < lfc → ¬ (r ∈ test_up D lfc ∧ r ∈ control_up D lfc))
    ∧ (lfc = 0 → r ∈ D → r.logFC = 0 →
        r ∈ test_up D lfc ∧ r ∈ control_up D lfc) := by
  have hu : r ∈ test_up D lfc ↔ r ∈ D ∧ lfc ≤ r.logFC := by
    simp [test_up, List.mem_filter]
  have hd : r ∈ control_up D lfc ↔ r ∈ D ∧ r.logFC ≤ -lfc := by
    simp [control_up, List.mem_filter]
  refine ⟨hu, hd, ?_, ?_⟩
  · rintro hpos ⟨h1, h2⟩
    have a1 := (hu.mp h1).2
    have a2 := (hd.mp h2).2
    linarith
  · intro h0 hmem hz
    subst h0
    exact ⟨hu.mpr ⟨hmem, by rw [hz]⟩, hd.mpr ⟨hmem, by rw [hz]; simp⟩⟩

/-- C2 witness: a zero row at cutoff zero lands in both sets; at cutoff
one, a single positive row is not in both sets. -/
theorem C2_partition_witness :
    ((⟨0, 0, "SO_1"⟩ : Row) ∈ test_up [⟨0, 0, "SO_1"⟩] 0
      ∧ (⟨0, 0, "SO_1"⟩ : Row) ∈ control_up [⟨0, 0, "SO_1"⟩] 0)
    ∧ ¬ ((⟨0, 2, "SO_2"⟩ : Row) ∈ test_up [⟨0, 2, "SO_2"⟩] 1
        ∧ (⟨0, 2, "SO_2"⟩ : Row) ∈ control_up [⟨0, 2, "SO_2"⟩] 1) :=
  ⟨(C2_partition [⟨0, 0, "SO_1"⟩] 0 ⟨0, 0, "SO_1"⟩).2.2.2 rfl (by decide) rfl,
   (C2_partition [⟨0, 2, "SO_2"⟩] 1 ⟨0, 2, "SO_2"⟩).2.2.1 (by decide)⟩

/-- C6: the significance filter retains a row iff
`adj.P.Val <= fdr_cutoff` and `|logFC| >= logfc_cutoff`, and both bounds
are inclusive: a row exactly at both bounds is retained. -/
theorem C6_significance_filter (fdr lfc : ℚ) (rows : List Row) (r : Row) :
    (r ∈ significanceFilter fdr lfc rows
      ↔ r ∈ rows ∧ r.adjPVal ≤ fdr ∧ lfc ≤ |r.logFC|)
    ∧ (r ∈ rows → r.adjPVal = fdr → |r.logFC| = lfc →
        r ∈ significanceFilter fdr lfc rows) := by
  constructor
  · simp [significanceFilter, List.mem_filter, deg_mask, and_assoc]
  · intro h1 h2 h3
    simp [significanceFilter, List.mem_filter, deg_mask, h1, h2, ← h3]

/-- C6 witness: a row exactly at both bounds is retained. -/
theorem C6_significance_filter_witness :
    (⟨1, 2, "SO_1"⟩ : Row) ∈ significanceFilter 1 2 [⟨1, 2, "SO_1"⟩] :=
  (C6_significance_filter 1 2 [⟨1, 2, "SO_1"⟩] ⟨1, 2, "SO_1"⟩).2 (by decide) rfl
    (by decide)

/-- C7: the identifier normalizer maps `"SO1427"` with the fix enabled to
`"SO_1427"`, leaves `"SO_1427"` unchanged (no double underscore), leaves
`"SO1427"` unchanged when the fix is disabled, and in general rewrites a
tag to `"SO_"` plus the remainder exactly when it starts with `SO`,
contains no underscore, and is longer than two characters. -/
theorem C7_normalize_round_trip :
    normalizeTag "SO1427" true = "SO_1427"
    ∧ normalizeTag "SO_1427" true = "SO_1427"
    ∧ normalizeTag "SO1427" false = "SO1427"
    ∧ ∀ tag : String,
        normalizeTag tag true
          = if tag.toList.take 2 = ['S', 'O'] ∧ '_' ∉ tag.toList ∧ 2 < tag.length
            then "SO_" ++ tag.drop 2 else tag :=
  ⟨by decide, by decide, rfl, fun tag => rfl⟩

/-- C8: when the significance filter retains no row, the classifier stops
with the recoverable empty-result notice and yields no DEG set, no up-set
and no down-set (no artifact input is ever produced). -/
theorem C8_empty_result (fdr lfc : ℚ) (one_probe : Bool) (rows : List Row)
    (h : significanceFilter fdr lfc rows = []) :
    classify fdr lfc one_probe rows = .error .emptyResult
    ∧ ∀ out, classify fdr lfc one_probe rows ≠ .ok out := by
  have hc : classify fdr lfc one_probe rows = .error .emptyResult := by
    simp only [classify]
    rw [if_pos h]
  exact ⟨hc, fun out hout => by rw [hc] at hout; exact Except.noConfusion hout⟩

/-- C8 witness: a single row failing the FDR bound yields the empty-result
error. -/
theorem C8_empty_result_witness :
    classify 0 1 true [⟨1, 0, "SO_1"⟩] = .error .emptyResult :=
  (C8_empty_result 0 1 true [⟨1, 0, "SO_1"⟩] (by decide)).1

/-- C9: the schema check reports every missing required column at once —
membership in the reported list is exactly required-and-absent, the check
fails with the full list whenever some required column is absent, and a
results table missing only `logFC` yields exactly `["logFC"]`. -/
theorem C9_missing_columns_full_set :
    (∀ required cols c, c ∈ missingCols required cols ↔ c ∈ required ∧ c ∉ cols)
    ∧ (∀ required cols, (∃ c ∈ required, c ∉ cols) →
        checkRequired required cols
          = .error (.missingColumns (missingCols required cols)))
    ∧ missingCols required_geo_cols ["ID", "adj.P.Val", "Gene.symbol"] = ["logFC"]
    ∧ checkRequired required_geo_cols ["ID", "adj.P.Val", "Gene.symbol"]
        = .error (.missingColumns ["logFC"]) := by
  refine ⟨?_, ?_, by decide, rfl⟩
  · intro required cols c
    simp [missingCols, List.mem_filter]
  · rintro required cols ⟨c, hc, hnc⟩
    have hmem : c ∈ missingCols required cols := by
      simp [missingCols, List.mem_filter, hc, hnc]
    unfold checkRequired
    rw [if_neg (List.ne_nil_of_mem hmem)]

/-- C9 witness: a results table lacking only `logFC` makes the merge-mode
requirement check fail with exactly that column. -/
theorem C9_missing_columns_witness :
    checkRequired required_geo_cols ["ID", "adj.P.Val"]
      = .error (.missingColumns (missingCols required_geo_cols ["ID", "adj.P.Val"])) :=
  C9_missing_columns_full_set.2.1 required_geo_cols ["ID", "adj.P.Val"]
    ⟨"logFC", by decide, by decide⟩

/-- C4: mode selection is decided only by the presence of an `ORF` column,
because any pre-existing `Locus_tag` column is dropped before the check:
a results table whose only identifier column is `Locus_tag` is sent to
merge mode and, with no annotation table, stops with the
missing-annotation error — against the documented single-file handling. -/
theorem C4_locus_tag_only_gets_merge_mode :
    detectMode ["ID", "adj.P.Val", "logFC", "Locus_tag"] = "merge"
    ∧ resolveJoinMode ["ID", "adj.P.Val", "logFC", "Locus_tag"] false
        = .error .annotMissing
    ∧ ∀ cols : List String, detectMode cols = "single" ↔ "ORF" ∈ cols := by
  refine ⟨rfl, rfl, ?_⟩
  intro cols
  simp only [detectMode]
  by_cases hl : "Locus_tag" ∈ cols
  · simp only [dropLocusTag, if_pos hl]
    have h2 : "Locus_tag" ∉ cols.filter fun c => decide (c ≠ "Locus_tag") := by
      simp [List.mem_filter]
    by_cases ho : "ORF" ∈ cols
    · have h1 : "ORF" ∈ cols.filter fun c => decide (c ≠ "Locus_tag") := by
        simp [List.mem_filter, ho]
      rw [if_pos (Or.inl h1)]
      simp [ho]
    · have h1 : "ORF" ∉ cols.filter fun c => decide (c ≠ "Locus_tag") := by
        simp [List.mem_filter, ho]
      rw [if_neg (not_or.mpr ⟨h1, h2⟩)]
      simp [ho]
  · simp only [dropLocusTag, if_neg hl]
    by_cases ho : "ORF" ∈ cols
    · rw [if_pos (Or.inl ho)]
      simp [ho]
    · rw [if_neg (not_or.mpr ⟨ho, hl⟩)]
      simp [ho]

/-- C10: every row of the final DEG set — with or without per-gene dedup,
for any nonnegative cutoff — lies in the up-set or the down-set, because
surviving the significance filter forces `|logFC| >= logfc_cutoff`. -/
theorem C10_deg_set_covered (fdr lfc : ℚ) (one_probe : Bool) (rows : List Row)
    (r : Row) (_hc : 0 ≤ lfc) (hr : r ∈ merged_deg fdr lfc one_probe rows) :
    r ∈ test_up (merged_deg fdr lfc one_probe rows) lfc
    ∨ r ∈ control_up (merged_deg fdr lfc one_probe rows) lfc := by
  have hf : r ∈ significanceFilter fdr lfc rows := by
    cases one_probe with
    | false => simpa [merged_deg] using hr
    | true =>
      have hr' : r ∈ dedupByTag (sortByAbsDesc (significanceFilter fdr lfc rows)) := hr
      have h1 : r ∈ sortByAbsDesc (significanceFilter fdr lfc rows) :=
        (dedupByTagAux_sublist [] _).subset hr'
      exact mem_sortByAbsDesc.mp h1
  have hmask := (List.mem_filter.mp hf).2
  simp only [deg_mask, Bool.and_eq_true, decide_eq_true_eq] at hmask
  obtain ⟨-, habs⟩ := hmask
  rcases le_abs.mp habs with hup | hdown
  · exact Or.inl (List.mem_filter.mpr ⟨hr, by simpa using hup⟩)
  · refine Or.inr (List.mem_filter.mpr ⟨hr, ?_⟩)
    have hle : r.logFC ≤ -lfc := le_neg.mp hdown
    simpa using hle

/-- C10 witness: a surviving positive row lies in the up- or down-set. -/
theorem C10_deg_set_covered_witness :
    (⟨0, 2, "SO_1"⟩ : Row) ∈ test_up (merged_deg 1 1 true [⟨0, 2, "SO_1"⟩]) 1
    ∨ (⟨0, 2, "SO_1"⟩ : Row) ∈ control_up (merged_deg 1 1 true [⟨0, 2, "SO_1"⟩]) 1 :=
  C10_deg_set_covered 1 1 true [⟨0, 2, "SO_1"⟩] ⟨0, 2, "SO_1"⟩ (by decide) (by decide)

/-- C5 counterexample: with a duplicated annotation id, the reported
dropped-row count (1: the unmatched probe) differs from
`len(input_after_dedup) - len(output_before_identifier_filter)` (2 - 2 = 0),
because the join emits one row per matching annotation row. -/
theorem C5_counterexample :
    ¬ ((mergePipeline [⟨"1", 0, 2⟩, ⟨"2", 0, 2⟩]
          [⟨"1", some "SO_1"⟩, ⟨"1", some "SO_2"⟩]).2
        = (dropDupById [⟨"1", 0, 2⟩, ⟨"2", 0, 2⟩]).length
          - (mergePipeline [⟨"1", 0, 2⟩, ⟨"2", 0, 2⟩]
              [⟨"1", some "SO_1"⟩, ⟨"1", some "SO_2"⟩]).1.length) := by
  decide

/-- C5 (amended): every merge-mode output row carries a non-null
identifier drawn from a matching annotation row; the reported dropped-row
count is `len(joined) - len(output)`, which equals
`len(input_after_dedup) - len(output_before_identifier_filter)` whenever
the annotation ids are pairwise distinct. -/
theorem C5_join_attrition (geo : List GeoRow) (gpl : List GplRow) :
    (∀ m ∈ (mergePipeline geo gpl).1,
        m.locusTag ≠ none ∧ ∃ a ∈ gpl, a.id = m.id ∧ a.orf = m.locusTag)
    ∧ ((gpl.map GplRow.id).Nodup →
        (mergePipeline geo gpl).2
          = (dropDupById geo).length - (mergePipeline geo gpl).1.length) := by
  constructor
  · intro m hm
    have hm' : m ∈ dropnaLocus (leftJoin (dropDupById geo) gpl) := hm
    obtain ⟨hmem, hsome⟩ := List.mem_filter.mp hm'
    obtain ⟨g, hg, hmg⟩ := List.mem_flatMap.mp hmem
    unfold leftJoinRow at hmg
    by_cases hms : (gpl.filter fun a => decide (a.id = g.id)) = []
    · rw [if_pos hms] at hmg
      have hmn : m = ⟨g.id, g.adjPVal, g.logFC, none⟩ := by simpa using hmg
      rw [hmn] at hsome
      simp at hsome
    · rw [if_neg hms] at hmg
      obtain ⟨a, ha, hae⟩ := List.mem_map.mp hmg
      obtain ⟨hagpl, haid⟩ := List.mem_filter.mp ha
      have haid' : a.id = g.id := of_decide_eq_true haid
      subst hae
      refine ⟨?_, a, hagpl, haid', rfl⟩
      have hs2 : a.orf.isSome = true := by simpa using hsome
      simpa using Option.ne_none_iff_isSome.mpr hs2
  · intro hnodup
    simp only [mergePipeline]
    rw [leftJoin_length gpl hnodup (dropDupById geo)]

/-- C5 witness: a one-row join with unique annotation ids — the output row
carries the annotation identifier and the reported count matches the
claimed formula. -/
theorem C5_join_attrition_witness :
    ((⟨"1", 0, 2, some "SO_1"⟩ : MergedRow).locusTag ≠ none
      ∧ ∃ a ∈ ([⟨"1", some "SO_1"⟩] : List GplRow),
          a.id = (⟨"1", 0, 2, some "SO_1"⟩ : MergedRow).id
          ∧ a.orf = (⟨"1", 0, 2, some "SO_1"⟩ : MergedRow).locusTag)
    ∧ (mergePipeline [⟨"1", 0, 2⟩] [⟨"1", some "SO_1"⟩]).2
        = (dropDupById [⟨"1", 0, 2⟩]).length
          - (mergePipeline [⟨"1", 0, 2⟩] [⟨"1", some "SO_1"⟩]).1.length :=
  ⟨(C5_join_attrition [⟨"1", 0, 2⟩] [⟨"1", some "SO_1"⟩]).1
      ⟨"1", 0, 2, some "SO_1"⟩ (by decide),
   (C5_join_attrition [⟨"1", 0, 2⟩] [⟨"1", some "SO_1"⟩]).2 (by decide)⟩

/-- C3 counterexample: on a single-file table with columns
`ID, adj.P.Val, logFC, ORF`, the serialized DEG table's columns are not
the resolved input columns alone — the internal helper column `abs_logFC`
appears in the output, as its header line shows. -/
theorem C3_counterexample :
    ¬ ("abs_logFC" ∉ degTableColumns (singleModeColumns ["ID", "adj.P.Val", "logFC", "ORF"]))
    ∧ degTableColumns (singleModeColumns ["ID", "adj.P.Val", "logFC", "ORF"])
        = ["ID", "adj.P.Val", "logFC", "Locus_tag", "abs_logFC"]
    ∧ df_to_tsv_bytes
        (degTableColumns (singleModeColumns ["ID", "adj.P.Val", "logFC", "ORF"]))
        [["1", "0.01", "2.5", "SO_1427", "2.5"]]
      = "ID\tadj.P.Val\tlogFC\tLocus_tag\tabs_logFC\n1\t0.01\t2.5\tSO_1427\t2.5\n" :=
  ⟨by decide, by decide, rfl⟩

/-- C3 (amended): the serialized DEG table is tab-delimited with a header
row plus exactly one row per DEG-set entry (one newline per line), and its
column order is the resolved input column order followed by the internal
`abs_logFC` helper column, which is included in the output rather than
excluded. -/
theorem C3_deg_table_serialization (resolvedCols : List String)
    (render : Row → List String) (d : List Row)
    (hcols : ∀ c ∈ degTableColumns resolvedCols, countNL c = 0)
    (hcells : ∀ r ∈ d, ∀ v ∈ render r, countNL v = 0) :
    countNL (df_to_tsv_bytes (degTableColumns resolvedCols) (d.map render))
      = 1 + d.length
    ∧ degTableColumns resolvedCols = resolvedCols ++ ["abs_logFC"]
    ∧ "abs_logFC" ∈ degTableColumns resolvedCols := by
  refine ⟨?_, rfl, by simp [degTableColumns]⟩
  unfold df_to_tsv_bytes
  rw [countNL_linesToBytes]
  · simp [Nat.add_comm]
  · intro x hx
    rcases List.mem_cons.mp hx with he | hm
    · rw [he]
      exact countNL_joinTabs _ hcols
    · simp only [List.map_map, List.mem_map] at hm
      obtain ⟨r, hr, hre⟩ := hm
      rw [← hre]
      exact countNL_joinTabs _ (hcells r hr)

/-- C3 witness: one serialized DEG row after single-file resolution — the
artifact has two lines and the helper column is present at the end. -/
theorem C3_deg_table_serialization_witness :
    countNL (df_to_tsv_bytes
        (degTableColumns (singleModeColumns ["ID", "adj.P.Val", "logFC", "ORF"]))
        ([(⟨0, 2, "SO_1427"⟩ : Row)].map fun r => [r.locusTag]))
      = 1 + 1
    ∧ degTableColumns (singleModeColumns ["ID", "adj.P.Val", "logFC", "ORF"])
        = singleModeColumns ["ID", "adj.P.Val", "logFC", "ORF"] ++ ["abs_logFC"]
    ∧ "abs_logFC" ∈ degTableColumns (singleModeColumns ["ID", "adj.P.Val", "logFC", "ORF"]) :=
  C3_deg_table_serialization (singleModeColumns ["ID", "adj.P.Val", "logFC", "ORF"])
    (fun r => [r.locusTag]) [⟨0, 2, "SO_1427"⟩] (by decide) (by decide)
